import Mathlib

/-!
Shallow embedding of the Starlink coverage analysis engine of
src/satellite_analysis.py: the per-instant visibility worker
process_time_point_worker, the time-grid construction and the
parallel/sequential scheduling of StarlinkAnalysis.analyze_coverage, and
the statistics reduction StarlinkAnalysis.calculate_stats.

Modelling conventions.  The numerical astronomy performed by skyfield
(orbit propagation and the topocentric altitude/azimuth/range
computation) is abstracted as an oracle SkyModel fixed for one analysis
call: construct says whether EarthSatellite creation succeeds for a TLE
triple, and altaz gives the result of topocentric.altaz() for one
satellite at one instant, with none meaning the computation raised an
exception.  Instants are modelled at the exact granularity the code
uses them: both the skyfield time (ts.utc with the whole-second field
t.second) and the formatted timestamp (strftime with seconds
resolution, whose lexicographic string order agrees with chronological
order) truncate the datetime to whole seconds, so a grid point reaches
the worker as the integer second count of the instant, and the
timestamp carried by records and samples is that same integer.  Python
float arithmetic on window parameters is modelled with exact rationals.
The nondeterministic completion order of the process pool is modelled
by an explicit parameter: arrived is the list of worker results in the
order concurrent.futures.as_completed delivered them (a permutation of
the submitted work, stated as a hypothesis where needed), and parFailed
says whether the parallel attempt raised, triggering the sequential
fallback discarding everything already collected.
-/

/-- One parsed two-line element set: the (name, line1, line2) triple the
engine passes to every worker. -/
structure TLE where
  name : String
  line1 : String
  line2 : String
deriving DecidableEq

/-- Output of topocentric.altaz() for one satellite at one instant:
elevation and azimuth in degrees and slant range in km. -/
structure AltAz where
  elevation : ℚ
  azimuth : ℚ
  distanceKm : ℚ
deriving DecidableEq

/-- Oracle for the skyfield numerics, fixed for one analysis call (it
absorbs the observer position and the timescale): construct models
whether EarthSatellite(line1, line2, name, ts) succeeds, altaz models
the altitude/azimuth/range computation at a whole-second instant, with
none standing for a raised exception. -/
structure SkyModel where
  construct : TLE → Bool
  altaz : TLE → Int → Option AltAz

/-- One visibility record as appended to visible_satellites by the
worker: name, distance_km, elevation, azimuth, timestamp. -/
structure VisRecord where
  name : String
  distanceKm : ℚ
  elevation : ℚ
  azimuth : ℚ
  timestamp : Int
deriving DecidableEq

/-- One per-instant result dictionary built by the worker: timestamp,
visible_count, visible_satellites, and the best-satellite fields
elevation / best_satellite / distance_km. -/
structure CoverageSampleR where
  timestamp : Int
  visibleCount : Nat
  visibleSatellites : List VisRecord
  elevation : ℚ
  bestSatellite : Option String
  distanceKm : ℚ
deriving DecidableEq

/-- Evaluation of one satellite at one instant inside the worker loop:
compute altaz (an exception skips the satellite), then append a record
iff alt.degrees > min_elevation_threshold. -/
def evalOne (sky : SkyModel) (minElev : ℚ) (tsec : Int) (sat : TLE) : Option VisRecord :=
  match sky.altaz sat tsec with
  | none => none
  | some o =>
      if minElev < o.elevation then
        some { name := sat.name, distanceKm := o.distanceKm, elevation := o.elevation,
               azimuth := o.azimuth, timestamp := tsec }
      else none

/-- The visible_satellites list built by the worker: satellites whose
EarthSatellite reconstruction succeeded, in catalog order, filtered by
the per-satellite evaluation. -/
def visibleSats (sky : SkyModel) (tles : List TLE) (minElev : ℚ) (tsec : Int) : List VisRecord :=
  (tles.filter sky.construct).filterMap (evalOne sky minElev tsec)

/-- One step of the best-satellite scan: replace the running best iff
the new elevation strictly exceeds the running maximum. -/
def bestStep (acc : Option VisRecord × ℚ) (r : VisRecord) : Option VisRecord × ℚ :=
  if acc.2 < r.elevation then (some r, r.elevation) else acc

/-- The best-satellite scan of the worker: best_satellite_info = None,
max_elevation = -90, then one bestStep per record in insertion order. -/
def bestFold (l : List VisRecord) : Option VisRecord × ℚ :=
  l.foldl bestStep (none, -90)

/-- process_time_point_worker of src/satellite_analysis.py: rebuild the
satellites, collect the visible records, scan for the best one, and
assemble the per-instant result dictionary (sentinel values 0 / None /
0 when nothing is visible). -/
def process_time_point_worker (sky : SkyModel) (tles : List TLE) (minElev : ℚ)
    (tsec : Int) : CoverageSampleR :=
  let visible := visibleSats sky tles minElev tsec
  match (bestFold visible).1 with
  | some b =>
      { timestamp := tsec, visibleCount := visible.length, visibleSatellites := visible,
        elevation := b.elevation, bestSatellite := some b.name, distanceKm := b.distanceKm }
  | none =>
      { timestamp := tsec, visibleCount := visible.length, visibleSatellites := visible,
        elevation := 0, bestSatellite := none, distanceKm := 0 }

/-- num_time_points = int(analysis_duration_minutes // interval_minutes);
List.range needs a Nat, and a negative floor yields an empty range. -/
def num_time_points (duration interval : ℚ) : Nat :=
  (⌊duration / interval⌋).toNat

/-- time_points_dt = [start + timedelta(minutes=i * interval) for i in
range(n)], expressed in seconds since the epoch of startSec. -/
def gridSeconds (startSec interval : ℚ) (n : Nat) : List ℚ :=
  (List.range n).map (fun i : Nat => startSec + (i : ℚ) * (interval * 60))

/-- The results list of the sequential (single-core) loop: one worker
call per grid instant, in grid order, each instant truncated to whole
seconds exactly as ts.utc and strftime truncate it. -/
def seqResults (sky : SkyModel) (cat : List TLE) (minElev : ℚ)
    (startSec interval duration : ℚ) : List CoverageSampleR :=
  (gridSeconds startSec interval (num_time_points duration interval)).map
    (fun t => process_time_point_worker sky cat minElev ⌊t⌋)

/-- Ordering of samples by timestamp, the sort key used both by
results.sort and by the final sort_values of the DataFrame. -/
def tsLe (a b : CoverageSampleR) : Prop :=
  a.timestamp ≤ b.timestamp

instance : DecidableRel tsLe :=
  fun a b => inferInstanceAs (Decidable (a.timestamp ≤ b.timestamp))

instance : IsTotal CoverageSampleR tsLe :=
  ⟨fun a b => Int.le_total a.timestamp b.timestamp⟩

instance : IsTrans CoverageSampleR tsLe :=
  ⟨fun _ _ _ h₁ h₂ => le_trans h₁ h₂⟩

/-- A sort of the sample list by timestamp, modelling both
results.sort(key=timestamp) and coverage_df.sort_values(by=timestamp). -/
def sortByTs (l : List CoverageSampleR) : List CoverageSampleR :=
  List.insertionSort tsLe l

/-- Outcome of one analyze_coverage call: a returned series (the
DataFrame rows) or the unhandled ZeroDivisionError raised by
duration // interval when interval is zero. -/
inductive AnalysisResult where
  | ok (series : List CoverageSampleR)
  | zeroDivisionError
deriving DecidableEq

/-- StarlinkAnalysis.analyze_coverage: empty catalog returns an empty
DataFrame at once; interval 0 raises in the floor division; otherwise
build the grid, run the parallel branch when num_cpus > 1 (collecting
arrived, sorting it, or on a pool failure discarding everything
collected and demoting to the sequential loop), run the sequential loop
when num_cpus == 1, return an empty DataFrame when no results were
produced, and finally sort the rows by timestamp. -/
def analyze_coverage (sky : SkyModel) (cat : List TLE) (minElev : ℚ)
    (startSec interval duration : ℚ) (numCpus : Nat)
    (arrived : List CoverageSampleR) (parFailed : Bool) : AnalysisResult :=
  if cat = [] then .ok []
  else if interval = 0 then .zeroDivisionError
  else
    let results : List CoverageSampleR :=
      if 1 < numCpus then
        if parFailed then seqResults sky cat minElev startSec interval duration
        else sortByTs arrived
      else if numCpus = 1 then seqResults sky cat minElev startSec interval duration
      else []
    if results = [] then .ok []
    else .ok (sortByTs results)

/-- The scalar statistics dictionary of calculate_stats. -/
structure CoverageStatsR where
  avg_visible_satellites : ℚ
  max_visible_satellites : Nat
  min_visible_satellites : Nat
  coverage_percentage : ℚ
  analysis_duration_minutes : Nat
  avg_elevation : ℚ
  max_elevation : ℚ
deriving DecidableEq

/-- StarlinkAnalysis.calculate_stats: on an empty DataFrame the missing
visible_count column raises a ValueError that the surrounding except
turns into the all-zero dictionary; on a non-empty series the means,
maxima and minima are taken over every row (the elevation column always
exists and is never null, every worker result carries it). -/
def calculate_stats (series : List CoverageSampleR) : CoverageStatsR :=
  match series with
  | [] =>
      { avg_visible_satellites := 0, max_visible_satellites := 0,
        min_visible_satellites := 0, coverage_percentage := 0,
        analysis_duration_minutes := 0, avg_elevation := 0, max_elevation := 0 }
  | s :: rest =>
      { avg_visible_satellites :=
          (((s :: rest).map fun x => (x.visibleCount : ℚ)).sum) / (s :: rest).length
        max_visible_satellites := rest.foldl (fun m x => max m x.visibleCount) s.visibleCount
        min_visible_satellites := rest.foldl (fun m x => min m x.visibleCount) s.visibleCount
        coverage_percentage :=
          (((s :: rest).filter fun x => 0 < x.visibleCount).length : ℚ)
            / (s :: rest).length * 100
        analysis_duration_minutes := (s :: rest).length
        avg_elevation := (((s :: rest).map fun x => x.elevation).sum) / (s :: rest).length
        max_elevation := rest.foldl (fun m x => max m x.elevation) s.elevation }

/-- The first element of a scan segment attaining the running strict
maximum: the value the best-satellite loop keeps when started at b and
fed l. -/
def firstArgmax (b : VisRecord) : List VisRecord → VisRecord
  | [] => b
  | r :: l => if b.elevation < r.elevation then firstArgmax r l else firstArgmax b l

/-- r is the first element of l with maximal elevation: everything
before it is strictly lower, everything after it no higher. -/
def IsFirstMax (l : List VisRecord) (r : VisRecord) : Prop :=
  ∃ l₁ l₂, l = l₁ ++ r :: l₂ ∧ (∀ x ∈ l₁, x.elevation < r.elevation) ∧
    ∀ x ∈ l₂, x.elevation ≤ r.elevation

theorem le_firstArgmax (l : List VisRecord) (b : VisRecord) :
    ∀ x ∈ b :: l, x.elevation ≤ (firstArgmax b l).elevation := by
  induction l generalizing b with
  | nil =>
    intro x hx
    rw [List.mem_singleton] at hx
    subst hx
    exact le_refl _
  | cons r t ih =>
    intro x hx
    by_cases h : b.elevation < r.elevation
    · rw [show firstArgmax b (r :: t) = firstArgmax r t by simp [firstArgmax, h]]
      rcases List.mem_cons.mp hx with hxb | hxl
      · subst hxb
        exact le_trans (le_of_lt h) (ih r r (List.mem_cons_self r t))
      · exact ih r x hxl
    · rw [show firstArgmax b (r :: t) = firstArgmax b t by simp [firstArgmax, h]]
      rcases List.mem_cons.mp hx with hxb | hxl
      · rw [hxb]
        exact ih b b (List.mem_cons_self b t)
      · rcases List.mem_cons.mp hxl with hxr | hxt
        · rw [hxr]
          exact le_trans (not_lt.mp h) (ih b b (List.mem_cons_self b t))
        · exact ih b x (List.mem_cons_of_mem b hxt)

theorem isFirstMax_firstArgmax (l : List VisRecord) (b : VisRecord) :
    IsFirstMax (b :: l) (firstArgmax b l) := by
  induction l generalizing b with
  | nil => exact ⟨[], [], by simp [firstArgmax], by simp, by simp⟩
  | cons r t ih =>
    by_cases h : b.elevation < r.elevation
    · rw [show firstArgmax b (r :: t) = firstArgmax r t by simp [firstArgmax, h]]
      obtain ⟨l₁, l₂, hd, h₁, h₂⟩ := ih r
      refine ⟨b :: l₁, l₂, by rw [List.cons_append, hd], ?_, h₂⟩
      intro x hx
      rcases List.mem_cons.mp hx with hxb | hxl
      · rw [hxb]
        exact lt_of_lt_of_le h (le_firstArgmax t r r (List.mem_cons_self r t))
      · exact h₁ x hxl
    · rw [show firstArgmax b (r :: t) = firstArgmax b t by simp [firstArgmax, h]]
      obtain ⟨l₁, l₂, hd, h₁, h₂⟩ := ih b
      rcases l₁ with _ | ⟨c, l₁'⟩
      · simp only [List.nil_append] at hd
        injection hd with hb ht
        refine ⟨[], r :: t, by rw [List.nil_append, ← hb], by simp, ?_⟩
        intro x hx
        rcases List.mem_cons.mp hx with hxr | hxt
        · rw [hxr, ← hb]
          exact not_lt.mp h
        · rw [ht] at hxt
          exact h₂ x hxt
      · simp only [List.cons_append] at hd
        injection hd with hb ht
        have hcmem : c ∈ c :: l₁' := List.mem_cons_self c l₁'
        have hclt : c.elevation < (firstArgmax b t).elevation := h₁ c hcmem
        refine ⟨b :: r :: l₁', l₂, ?_, ?_, h₂⟩
        · rw [List.cons_append, List.cons_append]
          conv_lhs => rw [ht]
        intro x hx
        rcases List.mem_cons.mp hx with hxb | hxl
        · rw [hxb, show b.elevation = c.elevation from by rw [hb]]
          exact hclt
        · rcases List.mem_cons.mp hxl with hxr | hxt
          · rw [hxr]
            calc r.elevation ≤ b.elevation := not_lt.mp h
              _ < (firstArgmax b t).elevation := by
                rw [show b.elevation = c.elevation from by rw [hb]]
                exact hclt
          · exact h₁ x (List.mem_cons_of_mem c hxt)

theorem isFirstMax_mem {l : List VisRecord} {r : VisRecord} (h : IsFirstMax l r) : r ∈ l := by
  obtain ⟨l₁, l₂, hd, -, -⟩ := h
  rw [hd]
  exact List.mem_append_right l₁ (List.mem_cons_self r l₂)

theorem foldl_bestStep_some (l : List VisRecord) (b : VisRecord) :
    l.foldl bestStep (some b, b.elevation) =
      (some (firstArgmax b l), (firstArgmax b l).elevation) := by
  induction l generalizing b with
  | nil => rfl
  | cons r t ih =>
    by_cases h : b.elevation < r.elevation
    · rw [show firstArgmax b (r :: t) = firstArgmax r t by simp [firstArgmax, h],
        List.foldl_cons, show bestStep (some b, b.elevation) r = (some r, r.elevation) by
          simp [bestStep, h]]
      exact ih r
    · rw [show firstArgmax b (r :: t) = firstArgmax b t by simp [firstArgmax, h],
        List.foldl_cons, show bestStep (some b, b.elevation) r = (some b, b.elevation) by
          simp [bestStep, h]]
      exact ih b

theorem bestFold_cons {r : VisRecord} (l : List VisRecord) (h : (-90 : ℚ) < r.elevation) :
    bestFold (r :: l) = (some (firstArgmax r l), (firstArgmax r l).elevation) := by
  rw [bestFold, List.foldl_cons,
    show bestStep (none, -90) r = (some r, r.elevation) by simp [bestStep, h]]
  exact foldl_bestStep_some l r

theorem evalOne_elev_gt {sky : SkyModel} {minElev : ℚ} {tsec : Int} {sat : TLE}
    {r : VisRecord} (h : evalOne sky minElev tsec sat = some r) :
    minElev < r.elevation := by
  unfold evalOne at h
  split at h
  · exact absurd h (by simp)
  · split at h
    · next hlt => cases h; exact hlt
    · exact absurd h (by simp)

theorem visibleSats_elev_gt (sky : SkyModel) (tles : List TLE) (minElev : ℚ) (tsec : Int) :
    ∀ r ∈ visibleSats sky tles minElev tsec, minElev < r.elevation := by
  intro r hr
  simp only [visibleSats, List.mem_filterMap] at hr
  obtain ⟨sat, -, hsat⟩ := hr
  exact evalOne_elev_gt hsat

theorem process_time_point_worker_timestamp (sky : SkyModel) (tles : List TLE)
    (minElev : ℚ) (tsec : Int) :
    (process_time_point_worker sky tles minElev tsec).timestamp = tsec := by
  simp only [process_time_point_worker]
  split <;> rfl

theorem sortByTs_sorted (l : List CoverageSampleR) : (sortByTs l).Sorted tsLe :=
  List.sorted_insertionSort tsLe l

theorem sortByTs_perm (l : List CoverageSampleR) : (sortByTs l).Perm l :=
  List.perm_insertionSort tsLe l

/-- Two sorted permutations of one another are equal as soon as samples
with equal timestamps are equal; this is what makes the timestamp sort
produce one well-defined series no matter in which order the pool
delivered the per-instant results. -/
theorem sorted_perm_eq {l₁ l₂ : List CoverageSampleR} (hp : l₁.Perm l₂)
    (h₁ : l₁.Sorted tsLe) (h₂ : l₂.Sorted tsLe)
    (hkey : ∀ a ∈ l₁, ∀ b ∈ l₁, a.timestamp = b.timestamp → a = b) : l₁ = l₂ := by
  induction l₁ generalizing l₂ with
  | nil => exact hp.symm.eq_nil.symm
  | cons a t ih =>
    cases l₂ with
    | nil => exact absurd hp.eq_nil (by simp)
    | cons b t₂ =>
      have hmem_a : a ∈ b :: t₂ := hp.subset (List.mem_cons_self a t)
      have hmem_b : b ∈ a :: t := hp.symm.subset (List.mem_cons_self b t₂)
      have h₁c := List.sorted_cons.mp h₁
      have h₂c := List.sorted_cons.mp h₂
      have hba : tsLe b a := by
        rcases List.mem_cons.mp hmem_a with h | h
        · exact le_of_eq (by rw [h])
        · exact h₂c.1 a h
      have hab : tsLe a b := by
        rcases List.mem_cons.mp hmem_b with h | h
        · exact le_of_eq (by rw [h])
        · exact h₁c.1 b h
      have heq : a = b :=
        hkey a (List.mem_cons_self a t) b hmem_b (le_antisymm hab hba)
      subst heq
      have hp' : t.Perm t₂ := hp.cons_inv
      have hkey' : ∀ x ∈ t, ∀ y ∈ t, x.timestamp = y.timestamp → x = y :=
        fun x hx y hy => hkey x (List.mem_cons_of_mem a hx) y (List.mem_cons_of_mem a hy)
      rw [ih hp' h₁c.2 h₂c.2 hkey']

/-- Per-instant worker results are determined by their timestamp: two
results of the sequential map with the same timestamp are the same
result, because the worker is a function of the truncated instant. -/
theorem seqResults_key_determined (sky : SkyModel) (cat : List TLE) (minElev : ℚ)
    (startSec interval duration : ℚ) :
    ∀ a ∈ seqResults sky cat minElev startSec interval duration,
      ∀ b ∈ seqResults sky cat minElev startSec interval duration,
        a.timestamp = b.timestamp → a = b := by
  intro a ha b hb h
  simp only [seqResults, List.mem_map] at ha hb
  obtain ⟨ta, -, rfl⟩ := ha
  obtain ⟨tb, -, rfl⟩ := hb
  rw [process_time_point_worker_timestamp, process_time_point_worker_timestamp] at h
  rw [h]

theorem sortByTs_idem (l : List CoverageSampleR) : sortByTs (sortByTs l) = sortByTs l := by
  unfold sortByTs
  exact List.Sorted.insertionSort_eq (List.sorted_insertionSort tsLe l)

theorem sortByTs_eq_nil_iff (l : List CoverageSampleR) : sortByTs l = [] ↔ l = [] := by
  rw [← List.length_eq_zero, ← List.length_eq_zero, (sortByTs_perm l).length_eq]

/-- C1: running the coverage analysis over one catalog, observer (fixed
inside the SkyModel oracle), grid and threshold with a concurrency
degree above one returns exactly the series of the single-core run, for
every completion order in which the pool can deliver the per-instant
results: concurrency never changes the sample content, only the
wall-clock cost. -/
theorem analyze_coverage_parallel_eq_sequential
    (sky : SkyModel) (cat : List TLE) (minElev : ℚ)
    (startSec interval duration : ℚ) (numCpus : Nat)
    (arrived : List CoverageSampleR) (hcpu : 1 < numCpus)
    (hperm : arrived.Perm (seqResults sky cat minElev startSec interval duration)) :
    analyze_coverage sky cat minElev startSec interval duration numCpus arrived false =
      analyze_coverage sky cat minElev startSec interval duration 1 [] false := by
  by_cases hcat : cat = []
  · simp [analyze_coverage, hcat]
  · by_cases hiv : interval = (0 : ℚ)
    · simp [analyze_coverage, hcat, hiv]
    · have hsort : sortByTs arrived =
          sortByTs (seqResults sky cat minElev startSec interval duration) := by
        apply sorted_perm_eq
        · exact (sortByTs_perm arrived).trans (hperm.trans (sortByTs_perm _).symm)
        · exact sortByTs_sorted _
        · exact sortByTs_sorted _
        · intro a ha b hb h
          exact seqResults_key_determined sky cat minElev startSec interval duration a
            (hperm.subset ((sortByTs_perm arrived).subset ha)) b
            (hperm.subset ((sortByTs_perm arrived).subset hb)) h
      simp only [analyze_coverage, if_neg hcat, if_neg hiv, if_pos hcpu,
        Bool.false_eq_true, if_false, Nat.lt_irrefl, if_true]
      rw [hsort, sortByTs_idem]
      by_cases hS : seqResults sky cat minElev startSec interval duration = []
      · simp [hS, sortByTs]
      · rw [if_neg (by rw [sortByTs_eq_nil_iff]; exact hS), if_neg hS]

/-- C9: when the worker pool fails, the call falls back to the strictly
sequential evaluation of the grid in original order; everything the
aborted parallel attempt had collected is discarded in full (the
outcome does not depend on it), and the scheduler failure does not fail
the overall call. -/
theorem scheduler_failure_fallback (sky : SkyModel) (cat : List TLE) (minElev : ℚ)
    (startSec interval duration : ℚ) (numCpus : Nat)
    (arrived : List CoverageSampleR) (hcpu : 1 < numCpus) :
    analyze_coverage sky cat minElev startSec interval duration numCpus arrived true =
      analyze_coverage sky cat minElev startSec interval duration 1 [] false := by
  simp only [analyze_coverage, if_pos hcpu, Nat.lt_irrefl, if_false, if_true]

/-- A structurally well-formed element set used in concrete runs. -/
def tleA : TLE :=
  { name := "STARLINK-A", line1 := "1 44713U", line2 := "2 44713" }

/-- A second element set used in concrete runs. -/
def tleB : TLE :=
  { name := "STARLINK-B", line1 := "1 44714U", line2 := "2 44714" }

/-- An oracle under which every satellite reconstruction fails: every
instant yields an empty sample. -/
def skyNone : SkyModel :=
  { construct := fun _ => false, altaz := fun _ _ => none }

/-- An oracle under which both fixture satellites are evaluated
successfully and share the exact maximum elevation of 30 degrees. -/
def skyTie : SkyModel :=
  { construct := fun _ => true
    altaz := fun sat _ =>
      if sat.name = "STARLINK-A" then some { elevation := 30, azimuth := 10, distanceKm := 550 }
      else if sat.name = "STARLINK-B" then some { elevation := 30, azimuth := 20, distanceKm := 600 }
      else none }

/-- The sample the worker produces at an instant with nothing visible. -/
def emptySampleAt (tsec : Int) : CoverageSampleR :=
  { timestamp := tsec, visibleCount := 0, visibleSatellites := [],
    elevation := 0, bestSatellite := none, distanceKm := 0 }


theorem process_time_point_worker_skyNone (cat : List TLE) (minElev : ℚ) (tsec : Int) :
    process_time_point_worker skyNone cat minElev tsec = emptySampleAt tsec := by
  simp [process_time_point_worker, visibleSats, skyNone, bestFold, emptySampleAt]

theorem seqResults_skyNone_eval :
    seqResults skyNone [tleA] 25 0 1 2 = [emptySampleAt 0, emptySampleAt 60] := by
  have hn : num_time_points 2 1 = 2 := by
    rw [num_time_points, show ⌊(2 : ℚ) / 1⌋ = (2 : ℤ) by norm_num]
    decide
  rw [seqResults, hn]
  norm_num [gridSeconds, List.range_succ, process_time_point_worker_skyNone]

theorem analyze_coverage_seq_eq (sky : SkyModel) (cat : List TLE) (minElev : ℚ)
    (startSec interval duration : ℚ) (hcat : cat ≠ []) (hiv : interval ≠ 0) :
    analyze_coverage sky cat minElev startSec interval duration 1 [] false =
      if seqResults sky cat minElev startSec interval duration = [] then .ok []
      else .ok (sortByTs (seqResults sky cat minElev startSec interval duration)) := by
  simp [analyze_coverage, hcat, hiv]

theorem sortByTs_pair_0_60 :
    sortByTs [emptySampleAt 0, emptySampleAt 60] = [emptySampleAt 0, emptySampleAt 60] := by
  unfold sortByTs
  exact List.Sorted.insertionSort_eq (by simp [List.sorted_cons, tsLe, emptySampleAt])

theorem analyze_skyNone_1_2_eval :
    analyze_coverage skyNone [tleA] 25 0 1 2 1 [] false =
      .ok [emptySampleAt 0, emptySampleAt 60] := by
  simp [analyze_coverage, seqResults_skyNone_eval, sortByTs_pair_0_60]

theorem analyze_coverage_parallel_eq_sequential_witness :
    1 < 8 ∧
    List.Perm [emptySampleAt 60, emptySampleAt 0] (seqResults skyNone [tleA] 25 0 1 2) ∧
    analyze_coverage skyNone [tleA] 25 0 1 2 8 [emptySampleAt 60, emptySampleAt 0] false =
      analyze_coverage skyNone [tleA] 25 0 1 2 1 [] false :=
  ⟨by norm_num,
    by rw [seqResults_skyNone_eval]; exact List.Perm.swap _ _ _,
    analyze_coverage_parallel_eq_sequential skyNone [tleA] 25 0 1 2 8
      [emptySampleAt 60, emptySampleAt 0] (by norm_num)
      (by rw [seqResults_skyNone_eval]; exact List.Perm.swap _ _ _)⟩

theorem scheduler_failure_fallback_witness :
    1 < 8 ∧
    analyze_coverage skyNone [tleA] 25 0 1 2 8 [emptySampleAt 999] true =
      analyze_coverage skyNone [tleA] 25 0 1 2 1 [] false :=
  ⟨by norm_num,
    scheduler_failure_fallback skyNone [tleA] 25 0 1 2 8 [emptySampleAt 999] (by norm_num)⟩

/-- C2 (amended): every series returned by analyze_coverage is sorted
by timestamp in non-decreasing order — results of the parallel branch
are re-sorted before being returned and the sequential branch is sorted
as well — but adjacent timestamps need not be strictly increasing,
because instants are truncated to whole seconds before evaluation and
formatting, so sub-second grid spacing yields equal adjacent
timestamps. -/
theorem analyze_coverage_returned_series_sorted
    (sky : SkyModel) (cat : List TLE) (minElev : ℚ)
    (startSec interval duration : ℚ) (numCpus : Nat)
    (arrived : List CoverageSampleR) (parFailed : Bool) (s : List CoverageSampleR)
    (h : analyze_coverage sky cat minElev startSec interval duration numCpus
          arrived parFailed = .ok s) :
    s.Sorted tsLe := by
  simp only [analyze_coverage] at h
  split_ifs at h
  all_goals
    first
    | exact AnalysisResult.noConfusion h
    | (injection h with h'
       rw [← h']
       exact List.sorted_nil)
    | (injection h with h'
       rw [← h']
       exact sortByTs_sorted _)

theorem analyze_coverage_returned_series_sorted_witness :
    analyze_coverage skyNone [tleA] 25 0 1 2 1 [] false =
      .ok [emptySampleAt 0, emptySampleAt 60] ∧
    List.Sorted tsLe [emptySampleAt 0, emptySampleAt 60] :=
  ⟨analyze_skyNone_1_2_eval,
    analyze_coverage_returned_series_sorted skyNone [tleA] 25 0 1 2 1 [] false
      [emptySampleAt 0, emptySampleAt 60] analyze_skyNone_1_2_eval⟩

/-- C2 counterexample: with the sub-second interval 1/128 minutes over
a window of 1/64 minutes (interval positive, duration at least the
interval, exactly as the claim quantifies) the two grid instants 0 s
and 0.46875 s truncate to the same whole second, so the returned series
carries two samples with equal timestamps and is not strictly
increasing by timestamp. -/
theorem strict_timestamp_order_counterexample :
    analyze_coverage skyNone [tleA] 25 0 (1/128) (1/64) 1 [] false =
      .ok [emptySampleAt 0, emptySampleAt 0] ∧
    ¬ List.Chain' (fun a b : CoverageSampleR => a.timestamp < b.timestamp)
        [emptySampleAt 0, emptySampleAt 0] := by
  constructor
  · have hn : num_time_points (1/64) (1/128) = 2 := by
      rw [num_time_points, show ⌊(1 : ℚ) / 64 / (1 / 128)⌋ = (2 : ℤ) by norm_num]
      decide
    have hs : seqResults skyNone [tleA] 25 0 (1/128) (1/64) =
        [emptySampleAt 0, emptySampleAt 0] := by
      rw [seqResults, hn]
      norm_num [gridSeconds, List.range_succ, process_time_point_worker_skyNone]
    have hsort : sortByTs [emptySampleAt 0, emptySampleAt 0] =
        [emptySampleAt 0, emptySampleAt 0] := by
      unfold sortByTs
      exact List.Sorted.insertionSort_eq (by simp [List.sorted_cons, tsLe, emptySampleAt])
    rw [analyze_coverage_seq_eq skyNone [tleA] 25 0 (1/128) (1/64) (by simp) (by norm_num),
      hs, if_neg (by simp), hsort]
  · simp [List.chain'_cons, emptySampleAt]

/-- The worker at an instant with an empty visible list: all three
best-satellite fields take their sentinel values. -/
theorem process_time_point_worker_of_visible_nil (sky : SkyModel) (cat : List TLE)
    (minElev : ℚ) (tsec : Int) (hv : visibleSats sky cat minElev tsec = []) :
    process_time_point_worker sky cat minElev tsec = emptySampleAt tsec := by
  simp [process_time_point_worker, hv, bestFold, emptySampleAt]

theorem process_time_point_worker_visible (sky : SkyModel) (cat : List TLE)
    (minElev : ℚ) (tsec : Int) :
    (process_time_point_worker sky cat minElev tsec).visibleSatellites =
      visibleSats sky cat minElev tsec := by
  simp only [process_time_point_worker]
  split <;> rfl

/-- C3: every sample the per-instant worker builds satisfies
visible_count = len(records); best is None iff the record list is
empty; and on a non-empty record list the best-satellite fields are
those of the first record attaining the maximum elevation over the
records — ties between records sharing the exact maximum go to the
first-encountered one, and the records are collected in catalog order.
The threshold is an elevation angle, hence at least -90 degrees. -/
theorem process_time_point_worker_sample_invariants
    (sky : SkyModel) (cat : List TLE) (minElev : ℚ) (tsec : Int)
    (hth : (-90 : ℚ) ≤ minElev) :
    (process_time_point_worker sky cat minElev tsec).visibleCount =
      (process_time_point_worker sky cat minElev tsec).visibleSatellites.length ∧
    ((process_time_point_worker sky cat minElev tsec).bestSatellite = none ↔
      (process_time_point_worker sky cat minElev tsec).visibleSatellites = []) ∧
    ((process_time_point_worker sky cat minElev tsec).visibleSatellites ≠ [] →
      ∃ b, IsFirstMax (process_time_point_worker sky cat minElev tsec).visibleSatellites b ∧
        (process_time_point_worker sky cat minElev tsec).bestSatellite = some b.name ∧
        (process_time_point_worker sky cat minElev tsec).elevation = b.elevation ∧
        ∀ r ∈ (process_time_point_worker sky cat minElev tsec).visibleSatellites,
          r.elevation ≤ b.elevation) := by
  rcases hvis : visibleSats sky cat minElev tsec with _ | ⟨r, t⟩
  · rw [process_time_point_worker_of_visible_nil sky cat minElev tsec hvis]
    refine ⟨rfl, by simp [emptySampleAt], ?_⟩
    intro hne
    exact absurd rfl hne
  · have hrmem : r ∈ visibleSats sky cat minElev tsec := by
      rw [hvis]
      exact List.mem_cons_self r t
    have hr : (-90 : ℚ) < r.elevation :=
      lt_of_le_of_lt hth (visibleSats_elev_gt sky cat minElev tsec r hrmem)
    have hbf : bestFold (visibleSats sky cat minElev tsec) =
        (some (firstArgmax r t), (firstArgmax r t).elevation) := by
      rw [hvis]
      exact bestFold_cons t hr
    have hw : process_time_point_worker sky cat minElev tsec =
        { timestamp := tsec, visibleCount := (visibleSats sky cat minElev tsec).length,
          visibleSatellites := visibleSats sky cat minElev tsec,
          elevation := (firstArgmax r t).elevation,
          bestSatellite := some (firstArgmax r t).name,
          distanceKm := (firstArgmax r t).distanceKm } := by
      simp [process_time_point_worker, hbf]
    rw [hw]
    refine ⟨rfl, by simp [hvis], ?_⟩
    intro _hne
    refine ⟨firstArgmax r t, ?_, rfl, rfl, ?_⟩
    · rw [hvis]
      exact isFirstMax_firstArgmax t r
    · intro x hx
      rw [hvis] at hx
      exact le_firstArgmax t r x hx

theorem process_time_point_worker_sample_invariants_witness :
    ((-90 : ℚ) ≤ 25) ∧
    ((process_time_point_worker skyTie [tleA, tleB] 25 0).visibleCount =
      (process_time_point_worker skyTie [tleA, tleB] 25 0).visibleSatellites.length ∧
    ((process_time_point_worker skyTie [tleA, tleB] 25 0).bestSatellite = none ↔
      (process_time_point_worker skyTie [tleA, tleB] 25 0).visibleSatellites = []) ∧
    ((process_time_point_worker skyTie [tleA, tleB] 25 0).visibleSatellites ≠ [] →
      ∃ b, IsFirstMax (process_time_point_worker skyTie [tleA, tleB] 25 0).visibleSatellites b ∧
        (process_time_point_worker skyTie [tleA, tleB] 25 0).bestSatellite = some b.name ∧
        (process_time_point_worker skyTie [tleA, tleB] 25 0).elevation = b.elevation ∧
        ∀ r ∈ (process_time_point_worker skyTie [tleA, tleB] 25 0).visibleSatellites,
          r.elevation ≤ b.elevation)) :=
  ⟨by norm_num,
    process_time_point_worker_sample_invariants skyTie [tleA, tleB] 25 0 (by norm_num)⟩

/-- C4: the per-satellite visibility evaluation emits a record iff the
computed elevation is strictly greater than min_elevation_threshold,
and emits nothing otherwise; consequently no record whose elevation is
at or below the threshold ever appears in the record list of an instant. -/
theorem visibility_record_iff_above_threshold
    (sky : SkyModel) (cat : List TLE) (minElev : ℚ) (tsec : Int) (sat : TLE) (o : AltAz)
    (halt : sky.altaz sat tsec = some o) :
    (evalOne sky minElev tsec sat =
        some { name := sat.name, distanceKm := o.distanceKm, elevation := o.elevation,
               azimuth := o.azimuth, timestamp := tsec } ↔ minElev < o.elevation) ∧
    (¬ minElev < o.elevation → evalOne sky minElev tsec sat = none) ∧
    (∀ r ∈ (process_time_point_worker sky cat minElev tsec).visibleSatellites,
      minElev < r.elevation) := by
  refine ⟨?_, ?_, ?_⟩
  · constructor
    · intro h
      exact evalOne_elev_gt h
    · intro h
      simp [evalOne, halt, h]
  · intro h
    simp [evalOne, halt, h]
  · intro r hr
    rw [process_time_point_worker_visible] at hr
    exact visibleSats_elev_gt sky cat minElev tsec r hr

theorem visibility_record_iff_above_threshold_witness :
    skyTie.altaz tleA 0 = some { elevation := 30, azimuth := 10, distanceKm := 550 } ∧
    ((evalOne skyTie 25 0 tleA =
        some { name := tleA.name, distanceKm := (550 : ℚ), elevation := 30,
               azimuth := 10, timestamp := 0 } ↔ (25 : ℚ) < 30) ∧
    (¬ (25 : ℚ) < 30 → evalOne skyTie 25 0 tleA = none) ∧
    (∀ r ∈ (process_time_point_worker skyTie [tleA, tleB] 25 0).visibleSatellites,
      (25 : ℚ) < r.elevation)) :=
  ⟨by simp [skyTie, tleA],
    visibility_record_iff_above_threshold skyTie [tleA, tleB] 25 0 tleA
      { elevation := 30, azimuth := 10, distanceKm := 550 } (by simp [skyTie, tleA])⟩

theorem visibleSats_construct_false {sky : SkyModel} {satC : TLE}
    (hc : sky.construct satC = false) (l₁ l₂ : List TLE) (minElev : ℚ) (tsec : Int) :
    visibleSats sky (l₁ ++ satC :: l₂) minElev tsec =
      visibleSats sky (l₁ ++ l₂) minElev tsec := by
  simp [visibleSats, List.filter_append, List.filter_cons, hc]

theorem visibleSats_altaz_none {sky : SkyModel} {satA : TLE} {tsec : Int}
    (ha : sky.altaz satA tsec = none) (l₁ l₂ : List TLE) (minElev : ℚ) :
    visibleSats sky (l₁ ++ satA :: l₂) minElev tsec =
      visibleSats sky (l₁ ++ l₂) minElev tsec := by
  by_cases h : sky.construct satA
  · simp [visibleSats, List.filter_append, List.filter_cons, h, List.filterMap_append,
      List.filterMap_cons, evalOne, ha]
  · simp [visibleSats, List.filter_append, List.filter_cons, h]

theorem process_time_point_worker_congr (sky : SkyModel) (minElev : ℚ) (tsec : Int)
    {c₁ c₂ : List TLE}
    (h : visibleSats sky c₁ minElev tsec = visibleSats sky c₂ minElev tsec) :
    process_time_point_worker sky c₁ minElev tsec =
      process_time_point_worker sky c₂ minElev tsec := by
  simp only [process_time_point_worker, h]

theorem seqResults_congr {sky : SkyModel} {c₁ c₂ : List TLE} {minElev : ℚ}
    (startSec interval duration : ℚ)
    (h : ∀ tsec, process_time_point_worker sky c₁ minElev tsec =
      process_time_point_worker sky c₂ minElev tsec) :
    seqResults sky c₁ minElev startSec interval duration =
      seqResults sky c₂ minElev startSec interval duration := by
  unfold seqResults
  exact List.map_congr_left (fun t _ => h ⌊t⌋)

/-- C8: a per-satellite failure at one instant is contained: a
satellite whose reconstruction fails, or whose evaluation raises, is
treated as not visible for that instant, the sample is still produced
and carries exactly the results of all the other satellites, and a
reconstruction failure never changes the outcome of the overall call
(sequential path shown; the remaining catalog must stay non-empty for
the calls to take the same branch). -/
theorem per_satellite_failure_contained
    (sky : SkyModel) (minElev : ℚ) (tsec : Int) (satC satA : TLE)
    (l₁ l₂ : List TLE) (startSec interval duration : ℚ)
    (hc : sky.construct satC = false) (ha : sky.altaz satA tsec = none)
    (hne : l₁ ++ l₂ ≠ []) (hiv : interval ≠ 0) :
    process_time_point_worker sky (l₁ ++ satC :: l₂) minElev tsec =
      process_time_point_worker sky (l₁ ++ l₂) minElev tsec ∧
    process_time_point_worker sky (l₁ ++ satA :: l₂) minElev tsec =
      process_time_point_worker sky (l₁ ++ l₂) minElev tsec ∧
    analyze_coverage sky (l₁ ++ satC :: l₂) minElev startSec interval duration 1 [] false =
      analyze_coverage sky (l₁ ++ l₂) minElev startSec interval duration 1 [] false := by
  refine ⟨process_time_point_worker_congr sky minElev tsec
      (visibleSats_construct_false hc l₁ l₂ minElev tsec),
    process_time_point_worker_congr sky minElev tsec
      (visibleSats_altaz_none ha l₁ l₂ minElev),
    ?_⟩
  have hseq : seqResults sky (l₁ ++ satC :: l₂) minElev startSec interval duration =
      seqResults sky (l₁ ++ l₂) minElev startSec interval duration :=
    seqResults_congr startSec interval duration
      (fun t => process_time_point_worker_congr sky minElev t
        (visibleSats_construct_false hc l₁ l₂ minElev t))
  rw [analyze_coverage_seq_eq sky (l₁ ++ satC :: l₂) minElev startSec interval duration
      (by simp) hiv,
    analyze_coverage_seq_eq sky (l₁ ++ l₂) minElev startSec interval duration hne hiv,
    hseq]

theorem per_satellite_failure_contained_witness :
    skyNone.construct tleA = false ∧
    skyNone.altaz tleB 0 = none ∧
    ([tleB] ++ ([] : List TLE)) ≠ [] ∧
    (1 : ℚ) ≠ 0 ∧
    (process_time_point_worker skyNone ([tleB] ++ tleA :: []) 25 0 =
      process_time_point_worker skyNone ([tleB] ++ []) 25 0 ∧
    process_time_point_worker skyNone ([tleB] ++ tleB :: []) 25 0 =
      process_time_point_worker skyNone ([tleB] ++ []) 25 0 ∧
    analyze_coverage skyNone ([tleB] ++ tleA :: []) 25 0 1 2 1 [] false =
      analyze_coverage skyNone ([tleB] ++ []) 25 0 1 2 1 [] false) :=
  ⟨rfl, rfl, by simp, by norm_num,
    per_satellite_failure_contained skyNone 25 0 tleA tleB [tleB] [] 0 1 2
      rfl rfl (by simp) (by norm_num)⟩

theorem process_time_point_worker_best_none (sky : SkyModel) (cat : List TLE)
    (minElev : ℚ) (tsec : Int)
    (h : (process_time_point_worker sky cat minElev tsec).bestSatellite = none) :
    (process_time_point_worker sky cat minElev tsec).elevation = 0 ∧
    (process_time_point_worker sky cat minElev tsec).distanceKm = 0 := by
  rcases hbf : (bestFold (visibleSats sky cat minElev tsec)).1 with _ | b
  · constructor <;> simp [process_time_point_worker, hbf]
  · rw [show (process_time_point_worker sky cat minElev tsec).bestSatellite = some b.name by
      simp [process_time_point_worker, hbf]] at h
    exact Option.noConfusion h

theorem foldl_max_init_le (l : List CoverageSampleR) (a : ℚ) :
    a ≤ l.foldl (fun m x => max m x.elevation) a := by
  induction l generalizing a with
  | nil => exact le_refl a
  | cons x t ih => exact le_trans (le_max_left a x.elevation) (ih _)

theorem elem_le_foldl_max (l : List CoverageSampleR) (a : ℚ) :
    ∀ x ∈ l, x.elevation ≤ l.foldl (fun m y => max m y.elevation) a := by
  induction l generalizing a with
  | nil =>
    intro x hx
    exact absurd hx (List.not_mem_nil x)
  | cons y t ih =>
    intro x hx
    rcases List.mem_cons.mp hx with hxy | hxt
    · rw [hxy]
      exact le_trans (le_max_right a y.elevation) (foldl_max_init_le t _)
    · exact ih _ x hxt

theorem sum_elevation_filter_isSome (l : List CoverageSampleR)
    (h0 : ∀ s ∈ l, s.bestSatellite = none → s.elevation = 0) :
    (((l.filter fun s => s.bestSatellite.isSome).map fun s => s.elevation).sum) =
      ((l.map fun s => s.elevation).sum) := by
  induction l with
  | nil => simp
  | cons a t ih =>
    have ht := ih (fun s hs => h0 s (List.mem_cons_of_mem a hs))
    by_cases h : a.bestSatellite.isSome
    · simp [List.filter_cons, h, ht]
    · have hnone : a.bestSatellite = none := by
        cases ha : a.bestSatellite
        · rfl
        · rw [ha] at h
          simp at h
      simp [List.filter_cons, h, ht, h0 a (List.mem_cons_self a t) hnone]

/-- C10: at an instant with no visible satellite the worker fills the
best-satellite fields with the sentinels elevation 0, distance_km 0 and
best_satellite None, and calculate_stats averages the elevation column
over every sample of the series: avg_elevation is the sum of the best
elevations of the samples that do have a best satellite divided by the
total number of samples (each empty sample contributing its 0), and
max_elevation also takes the 0 of any empty sample into account. -/
theorem empty_sample_sentinels_in_stats
    (sky : SkyModel) (cat : List TLE) (minElev : ℚ) (pts : List Int)
    (hne : pts ≠ []) :
    (∀ tsec, visibleSats sky cat minElev tsec = [] →
      process_time_point_worker sky cat minElev tsec = emptySampleAt tsec) ∧
    (calculate_stats (pts.map (process_time_point_worker sky cat minElev))).avg_elevation =
      ((((pts.map (process_time_point_worker sky cat minElev)).filter
          fun s => s.bestSatellite.isSome).map fun s => s.elevation).sum) /
        ((pts.map (process_time_point_worker sky cat minElev)).length : ℚ) ∧
    ((∃ s ∈ pts.map (process_time_point_worker sky cat minElev),
        s.bestSatellite = none) →
      0 ≤ (calculate_stats
        (pts.map (process_time_point_worker sky cat minElev))).max_elevation) := by
  have hzero : ∀ s ∈ pts.map (process_time_point_worker sky cat minElev),
      s.bestSatellite = none → s.elevation = 0 := by
    intro s hs hnone
    simp only [List.mem_map] at hs
    obtain ⟨t, -, rfl⟩ := hs
    exact (process_time_point_worker_best_none sky cat minElev t hnone).1
  refine ⟨fun tsec hv => process_time_point_worker_of_visible_nil sky cat minElev tsec hv,
    ?_, ?_⟩
  · rcases hm : pts.map (process_time_point_worker sky cat minElev) with _ | ⟨s, rest⟩
    · exact absurd (List.map_eq_nil_iff.mp hm) hne
    · rw [show calculate_stats (s :: rest) = _ from rfl]
      simp only [calculate_stats]
      rw [sum_elevation_filter_isSome (s :: rest) (hm ▸ hzero)]
  · intro hex
    obtain ⟨s, hs, hnone⟩ := hex
    have hsz : s.elevation = 0 := hzero s hs hnone
    rcases hm : pts.map (process_time_point_worker sky cat minElev) with _ | ⟨a, rest⟩
    · rw [hm] at hs
      exact absurd hs (List.not_mem_nil s)
    · rw [hm] at hs
      simp only [calculate_stats]
      rcases List.mem_cons.mp hs with hsa | hsr
      · rw [← hsz, hsa]
        exact foldl_max_init_le rest a.elevation
      · rw [← hsz]
        exact elem_le_foldl_max rest a.elevation s hsr

theorem empty_sample_sentinels_in_stats_witness :
    ([(0 : Int)] ≠ []) ∧
    ((∀ tsec, visibleSats skyNone [tleA] 25 tsec = [] →
      process_time_point_worker skyNone [tleA] 25 tsec = emptySampleAt tsec) ∧
    (calculate_stats ([(0 : Int)].map (process_time_point_worker skyNone [tleA] 25))).avg_elevation =
      (((([(0 : Int)].map (process_time_point_worker skyNone [tleA] 25)).filter
          fun s => s.bestSatellite.isSome).map fun s => s.elevation).sum) /
        ((([(0 : Int)].map (process_time_point_worker skyNone [tleA] 25)).length : ℚ)) ∧
    ((∃ s ∈ [(0 : Int)].map (process_time_point_worker skyNone [tleA] 25),
        s.bestSatellite = none) →
      0 ≤ (calculate_stats
        ([(0 : Int)].map (process_time_point_worker skyNone [tleA] 25))).max_elevation)) :=
  ⟨by simp,
    empty_sample_sentinels_in_stats skyNone [tleA] 25 [(0 : Int)] (by simp)⟩

/-- C5: for interval_minutes > 0 and duration_minutes at least the
interval, the grid is an ordered sequence of exactly
floor(duration/interval) instants start + i*interval (expressed here in
seconds, one minute being 60 seconds), with fixed spacing
interval*60 seconds between consecutive instants, strictly increasing,
and with no fractional trailing instant: the length is exactly the floor,
at least one. -/
theorem time_grid_spec (startSec interval duration : ℚ)
    (hiv : 0 < interval) (hd : interval ≤ duration) :
    (gridSeconds startSec interval (num_time_points duration interval)).length =
      num_time_points duration interval ∧
    ((num_time_points duration interval : ℤ) = ⌊duration / interval⌋ ∧
      1 ≤ num_time_points duration interval) ∧
    (∀ (i : Nat) (h : i <
        (gridSeconds startSec interval (num_time_points duration interval)).length),
      (gridSeconds startSec interval (num_time_points duration interval)).get ⟨i, h⟩ =
        startSec + (i : ℚ) * (interval * 60)) ∧
    (∀ (i : Nat) (h : i + 1 <
        (gridSeconds startSec interval (num_time_points duration interval)).length),
      (gridSeconds startSec interval (num_time_points duration interval)).get
          ⟨i + 1, h⟩ -
        (gridSeconds startSec interval (num_time_points duration interval)).get
          ⟨i, Nat.lt_of_succ_lt h⟩ = interval * 60) ∧
    List.Chain' (fun a b : ℚ => a < b)
      (gridSeconds startSec interval (num_time_points duration interval)) := by
  have hone : (1 : ℚ) ≤ duration / interval := (one_le_div hiv).mpr hd
  have hfloor : (1 : ℤ) ≤ ⌊duration / interval⌋ := by
    rw [Int.le_floor]
    exact_mod_cast hone
  have hcast : (num_time_points duration interval : ℤ) = ⌊duration / interval⌋ := by
    rw [num_time_points]
    omega
  have hgetAux : ∀ (i : Nat) (h : i <
      (gridSeconds startSec interval (num_time_points duration interval)).length),
      (gridSeconds startSec interval (num_time_points duration interval)).get ⟨i, h⟩ =
        startSec + (i : ℚ) * (interval * 60) := by
    intro i h
    rw [List.get_eq_getElem]
    simp only [gridSeconds, List.getElem_map, List.getElem_range]
  refine ⟨by rw [gridSeconds, List.length_map, List.length_range],
    ⟨hcast, by omega⟩, hgetAux, ?_, ?_⟩
  · intro i h
    rw [hgetAux (i + 1) h, hgetAux i (Nat.lt_of_succ_lt h)]
    push_cast
    ring
  · rw [List.chain'_iff_get]
    intro i h
    rw [hgetAux i (by omega), hgetAux (i + 1) (by omega)]
    have h60 : (0 : ℚ) < interval * 60 := by positivity
    push_cast
    nlinarith [h60]

theorem time_grid_spec_witness :
    ((0 : ℚ) < 2 ∧ (2 : ℚ) ≤ 5) ∧
    ((gridSeconds 0 2 (num_time_points 5 2)).length = num_time_points 5 2 ∧
    ((num_time_points 5 2 : ℤ) = ⌊(5 : ℚ) / 2⌋ ∧ 1 ≤ num_time_points 5 2) ∧
    (∀ (i : Nat) (h : i < (gridSeconds 0 2 (num_time_points 5 2)).length),
      (gridSeconds 0 2 (num_time_points 5 2)).get ⟨i, h⟩ = 0 + (i : ℚ) * (2 * 60)) ∧
    (∀ (i : Nat) (h : i + 1 < (gridSeconds 0 2 (num_time_points 5 2)).length),
      (gridSeconds 0 2 (num_time_points 5 2)).get ⟨i + 1, h⟩ -
        (gridSeconds 0 2 (num_time_points 5 2)).get ⟨i, Nat.lt_of_succ_lt h⟩ = 2 * 60) ∧
    List.Chain' (fun a b : ℚ => a < b) (gridSeconds 0 2 (num_time_points 5 2))) :=
  ⟨⟨by norm_num, by norm_num⟩, time_grid_spec 0 2 5 (by norm_num) (by norm_num)⟩

theorem seqResults_nil_of_floor_nonpos (sky : SkyModel) (cat : List TLE) (minElev : ℚ)
    (startSec : ℚ) {interval duration : ℚ} (h : ⌊duration / interval⌋ ≤ 0) :
    seqResults sky cat minElev startSec interval duration = [] := by
  have hn : num_time_points duration interval = 0 := by
    rw [num_time_points]
    omega
  simp [seqResults, hn, gridSeconds]

/-- C6 counterexample: a non-positive interval is not rejected and no
error is raised before or instead of the computation: with a non-empty
catalog, interval -1 and duration 60 the call simply returns an empty
series (the claimed InvalidWindow failure does not exist in the code). -/
theorem invalid_window_counterexample :
    analyze_coverage skyNone [tleA] 25 0 (-1) 60 1 [] false = .ok [] := by
  have hs : seqResults skyNone [tleA] 25 0 (-1) 60 = [] := by
    refine seqResults_nil_of_floor_nonpos skyNone [tleA] 25 0 ?_
    rw [show ⌊(60 : ℚ) / (-1)⌋ = (-60 : ℤ) by norm_num]
    norm_num
  rw [analyze_coverage_seq_eq skyNone [tleA] 25 0 (-1) 60 (by simp) (by norm_num), hs,
    if_pos rfl]

/-- C6 (amended): analyze_coverage performs no window validation and no
InvalidWindow error exists: with a non-empty catalog an interval of
exactly 0 makes the floor division duration // interval raise an
unhandled ZeroDivisionError before any time point is evaluated, while a
negative interval with positive duration, or a non-positive duration
with positive interval, yields an empty grid and the call returns an
empty series with no error raised and nothing retried. -/
theorem analyze_coverage_nonpositive_window (sky : SkyModel) (cat : List TLE)
    (minElev : ℚ) (startSec interval duration : ℚ) (numCpus : Nat)
    (arrived : List CoverageSampleR) (parFailed : Bool) (hcat : cat ≠ []) :
    analyze_coverage sky cat minElev startSec 0 duration numCpus arrived parFailed =
      .zeroDivisionError ∧
    (interval < 0 → 0 < duration →
      analyze_coverage sky cat minElev startSec interval duration 1 [] false = .ok []) ∧
    (duration ≤ 0 → 0 < interval →
      analyze_coverage sky cat minElev startSec interval duration 1 [] false = .ok []) := by
  refine ⟨by simp [analyze_coverage, hcat], ?_, ?_⟩
  · intro hneg hdur
    have hq : duration / interval < 0 := div_neg_of_pos_of_neg hdur hneg
    have hs : seqResults sky cat minElev startSec interval duration = [] :=
      seqResults_nil_of_floor_nonpos sky cat minElev startSec
        (le_trans (Int.floor_le_floor (le_of_lt hq)) (by norm_num))
    rw [analyze_coverage_seq_eq sky cat minElev startSec interval duration hcat
      (ne_of_lt hneg), hs, if_pos rfl]
  · intro hdur hpos
    have hq : duration / interval ≤ 0 := div_nonpos_of_nonpos_of_nonneg hdur (le_of_lt hpos)
    have hs : seqResults sky cat minElev startSec interval duration = [] :=
      seqResults_nil_of_floor_nonpos sky cat minElev startSec
        (le_trans (Int.floor_le_floor hq) (by norm_num))
    rw [analyze_coverage_seq_eq sky cat minElev startSec interval duration hcat
      (ne_of_gt hpos), hs, if_pos rfl]

theorem analyze_coverage_nonpositive_window_witness :
    ([tleA] ≠ ([] : List TLE)) ∧
    (analyze_coverage skyNone [tleA] 25 0 0 60 1 [] false = .zeroDivisionError ∧
    ((-1 : ℚ) < 0 → (0 : ℚ) < 60 →
      analyze_coverage skyNone [tleA] 25 0 (-1) 60 1 [] false = .ok []) ∧
    ((60 : ℚ) ≤ 0 → (0 : ℚ) < (-1 : ℚ) →
      analyze_coverage skyNone [tleA] 25 0 (-1) 60 1 [] false = .ok [])) :=
  ⟨by simp,
    analyze_coverage_nonpositive_window skyNone [tleA] 25 0 (-1) 60 1 [] false (by simp)⟩

/-- C7 counterexample: a valid window of duration 3 and interval 1 has
N = 3 grid points, yet over the empty catalog the call returns the
empty series — zero samples instead of the claimed three empty samples;
the coverage percentage over the returned empty series is 0. -/
theorem empty_catalog_counterexample :
    analyze_coverage skyNone [] 25 0 1 3 1 [] false = .ok [] ∧
    num_time_points 3 1 = 3 ∧
    (calculate_stats []).coverage_percentage = 0 := by
  refine ⟨rfl, ?_, rfl⟩
  rw [num_time_points, show ⌊(3 : ℚ) / 1⌋ = (3 : ℤ) by norm_num]
  decide

/-- C7 (amended): for every window over the empty catalog the call
returns the empty CoverageSeries — zero samples, not one empty sample
per grid point — and the statistics of that returned series report
coverage_percentage 0. -/
theorem analyze_coverage_empty_catalog (sky : SkyModel) (minElev : ℚ)
    (startSec interval duration : ℚ) (numCpus : Nat)
    (arrived : List CoverageSampleR) (parFailed : Bool) :
    analyze_coverage sky [] minElev startSec interval duration numCpus arrived parFailed =
      .ok [] ∧
    (calculate_stats []).coverage_percentage = 0 :=
  ⟨rfl, rfl⟩
